import Mathlib

/-!
Verification of the client-side video assembly pipeline
(`assembleVideo` in `src/utils/videoCreationUtils.ts`, reproduced at the
end of `src/components/FacelessVideoGenerator.tsx`).

Numeric model: the source computes with JavaScript doubles; the spec states
its properties in exact arithmetic, so the embedding uses ℚ.  JavaScript
`Math.floor`, `Math.min`, `%` and `/` are modelled exactly on the
non-negative finite inputs the pipeline produces; the one division-by-zero
case (empty image list) is discussed at `currentScene` below.
-/

namespace FacelessVideo

/-- A still image as produced upstream: base64 payload plus mime type
(interface `GeneratedImage`). -/
structure GeneratedImage where
  base64 : String
  mimeType : String
deriving DecidableEq

/-- A decoded raster surface (an `HTMLImageElement` that fired `onload`):
its natural width and height in pixels. -/
structure DecodedFrame where
  width : ℚ
  height : ℚ
deriving DecidableEq, Inhabited

/-- Line 255: `const sceneDuration = audioDuration / images.length;`.
For an empty image list JavaScript yields `+Infinity` (duration / 0);
the ℚ convention yields `0`.  Both are "not a positive finite number",
and both make every quotient `t / sceneDuration` floor to `0`, so the
scene-index computation below agrees with the JavaScript double
computation in that degenerate case as well. -/
def sceneDuration (audioDuration : ℚ) (n : ℕ) : ℚ :=
  audioDuration / n

/-- JavaScript truncation toward zero, the rounding used by the `%`
operator on doubles. -/
def jsTrunc (q : ℚ) : ℤ :=
  if 0 ≤ q then ⌊q⌋ else ⌈q⌉

/-- JavaScript `a % b` on doubles: the remainder `a - b * trunc (a / b)`,
with the sign of the dividend. -/
def jsMod (a b : ℚ) : ℚ :=
  a - b * jsTrunc (a / b)

/-- Line 306:
`currentScene = Math.min(Math.floor(elapsedTime / sceneDuration), images.length - 1);`.
`n` is `images.length`; the result is an ℤ because the JavaScript
expression can be `-1` when `n = 0`. -/
def currentScene (audioDuration : ℚ) (n : ℕ) (t : ℚ) : ℤ :=
  min ⌊t / sceneDuration audioDuration n⌋ ((n : ℤ) - 1)

/-- Line 308: `const timeInScene = elapsedTime % sceneDuration;`. -/
def timeInScene (audioDuration : ℚ) (n : ℕ) (t : ℚ) : ℚ :=
  jsMod t (sceneDuration audioDuration n)

/-- Line 314 factor `timeInScene / sceneDuration`: the intra-scene
progress fraction the Ken Burns scale is driven by. -/
def sceneProgress (audioDuration : ℚ) (n : ℕ) (t : ℚ) : ℚ :=
  timeInScene audioDuration n t / sceneDuration audioDuration n

/-- Line 314: `const scale = 1 + (timeInScene / sceneDuration) * 0.1;`,
as a function of the progress fraction `p`. -/
def kbScale (p : ℚ) : ℚ :=
  1 + p * (1 / 10)

/-- A destination rectangle for `ctx.drawImage(image, x, y, w, h)`. -/
structure KBRect where
  x : ℚ
  y : ℚ
  w : ℚ
  h : ℚ
deriving DecidableEq

/-- Lines 314-318: the Ken Burns transform.
`x = (canvas.width - image.width * scale) / 2`,
`y = (canvas.height - image.height * scale) / 2`, and the image is drawn
with size `image.width * scale` by `image.height * scale`. -/
def kenBurns (p nativeW nativeH canvasW canvasH : ℚ) : KBRect :=
  let s := kbScale p
  { x := (canvasW - nativeW * s) / 2
    y := (canvasH - nativeH * s) / 2
    w := nativeW * s
    h := nativeH * s }

/-- Line 246-247: the fixed canvas resolution. -/
def canvasWidth : ℚ := 1280

/-- Line 247. -/
def canvasHeight : ℚ := 720

/-! ## The assembly process (lines 239-325)

`assembleVideo` returns `new Promise(async (resolve, reject) => ...)`.
The executor is an `async` function, so an exception thrown after its
first `await` (a rejected `await`, or a synchronous `throw` later in the
body) only rejects the executor's own implicit promise, which the
`Promise` constructor discards: in that case `resolve`/`reject` are never
called and the returned promise never settles.  The model records that
situation as `hung`/`pending`. -/

/-- An encoded chunk handed to `recorder.ondataavailable` (line 285),
modelled as an opaque identifier. -/
abbrev Chunk := ℕ

/-- The `Blob` built on line 288: `new Blob(chunks, { type: 'video/webm' })`
keeps the ordered list of parts and the mime-type tag. -/
structure Blob where
  parts : List Chunk
  type : String
deriving DecidableEq

/-- The values the executor can pass to `reject`. -/
inductive JsError where
  /-- Line 251: `new Error('Canvas context not available')` — the spec's
  `SetupError` case that the code does reject. -/
  | ctxUnavailable : JsError
  /-- Line 291: the event passed to `recorder.onerror` is forwarded to
  `reject` — the spec's `EncodingError`; the payload identifies the
  host's error event. -/
  | recorderError (e : ℕ) : JsError
deriving DecidableEq

/-- Settlement state of the promise returned by `assembleVideo`. -/
inductive Outcome where
  | pending : Outcome
  | rejected (e : JsError) : Outcome
  | resolved (b : Blob) : Outcome
deriving DecidableEq

/-- The browser capabilities `assembleVideo` touches during setup. -/
structure Host where
  /-- `canvas.getContext('2d')` returns a context (line 248). -/
  ctx2d : Bool
  /-- Image decoding: `some frame` means the `Image` element fires
  `onload`, `none` means it fires `onerror` (lines 260-264). -/
  decodeImg : GeneratedImage → Option DecodedFrame
  /-- `canvas.captureStream(25)` does not throw (line 270). -/
  captureOk : Bool
  /-- `new MediaRecorder(stream, mimeType)` does not throw (line 282). -/
  recorderOk : Bool

/-- Lines 257-267: `await Promise.all(images.map(...))`.  `Promise.all`
resolves with the results in input order when every element resolves and
rejects as soon as any element rejects. -/
def decodeAll (h : Host) : List GeneratedImage → Option (List DecodedFrame)
  | [] => some []
  | img :: rest =>
    match h.decodeImg img, decodeAll h rest with
    | some f, some fs => some (f :: fs)
    | _, _ => none

/-- How far the executor gets before the recorder produces events. -/
inductive SetupResult where
  /-- `reject` was called synchronously (line 251), so the returned
  promise rejects. -/
  | rejected (e : JsError) : SetupResult
  /-- An exception escaped the `async` executor after its first `await`:
  nobody calls `resolve` or `reject`, so the returned promise never
  settles. -/
  | hung : SetupResult
  /-- `recorder.start()` on line 293 was reached, with every input image
  already decoded into `frames`. -/
  | started (frames : List DecodedFrame) : SetupResult

/-- Lines 244-293 in program order: the 2d-context check (which rejects
directly), the awaited decode of all images (whose failure escapes the
async executor), `captureStream` and the `MediaRecorder` constructor
(whose exceptions also escape the async executor), then
`recorder.start()`. -/
def assembleSetup (h : Host) (images : List GeneratedImage) : SetupResult :=
  if h.ctx2d = false then .rejected .ctxUnavailable
  else
    match decodeAll h images with
    | none => .hung
    | some frames =>
      if h.captureOk = false then .hung
      else if h.recorderOk = false then .hung
      else .started frames

/-- Events the host delivers to the `MediaRecorder` handlers. -/
inductive RecEvent where
  | dataavailable (c : Chunk) : RecEvent
  | stop : RecEvent
  | error (e : ℕ) : RecEvent
deriving DecidableEq

/-- What the promise has been settled with, if anything. -/
inductive Settlement where
  | ok (b : Blob) : Settlement
  | err (e : JsError) : Settlement
deriving DecidableEq

/-- The executor's mutable captures: the `chunks` array (line 283) and
the settlement state of the returned promise. -/
structure RecState where
  chunks : List Chunk
  settled : Option Settlement
deriving DecidableEq

/-- Lines 285-291, one recorder event at a time.  `ondataavailable`
pushes the chunk; `onstop` calls `resolve` with the concatenated blob;
`onerror` calls `reject` with the event.  A promise settles at most
once, so `resolve`/`reject` after a prior settlement change nothing. -/
def stepRec (s : RecState) : RecEvent → RecState
  | .dataavailable c => { s with chunks := s.chunks ++ [c] }
  | .stop =>
    match s.settled with
    | some v => { s with settled := some v }
    | none => { s with settled := some (.ok ⟨s.chunks, "video/webm"⟩) }
  | .error e =>
    match s.settled with
    | some v => { s with settled := some v }
    | none => { s with settled := some (.err (.recorderError e)) }

/-- Run the recorder handlers over a sequence of host events, starting
from the empty `chunks` array and an unsettled promise. -/
def runRecorder (events : List RecEvent) : RecState :=
  events.foldl stepRec ⟨[], none⟩

/-- The settlement of the promise `assembleVideo` returns, given the
host's capabilities, the input images, and the recorder events the host
delivers after `recorder.start()`. -/
def assembleOutcome (h : Host) (images : List GeneratedImage)
    (events : List RecEvent) : Outcome :=
  match assembleSetup h images with
  | .rejected e => .rejected e
  | .hung => .pending
  | .started _ =>
    match (runRecorder events).settled with
    | none => .pending
    | some (.ok b) => .resolved b
    | some (.err e) => .rejected e

/-- Whether `recorder.start()` (line 293) is ever executed. -/
def encoderStarted (h : Host) (images : List GeneratedImage) : Bool :=
  match assembleSetup h images with
  | .started _ => true
  | _ => false

/-- Lines 298-321, the `draw` loop, as a function of the sampled elapsed
times of the successive animation-frame callbacks.  A tick with
`elapsedTime >= audioDuration` calls `recorder.stop()` and returns
without drawing or scheduling another callback, so all later samples are
discarded; every other tick draws the frame for `currentScene` and
schedules the next callback.  The result is the list of
(elapsed time, scene index referenced by the image lookup on line 307)
pairs actually drawn, and whether `recorder.stop()` was called. -/
def renderLoop (audioDuration : ℚ) (n : ℕ) : List ℚ → List (ℚ × ℤ) × Bool
  | [] => ([], false)
  | t :: ts =>
    if audioDuration ≤ t then ([], true)
    else
      let rest := renderLoop audioDuration n ts
      ((t, currentScene audioDuration n t) :: rest.1, rest.2)

/-- A host on which every setup step succeeds and every image decodes to
a 640 by 480 frame. -/
def hostAllOk : Host :=
  { ctx2d := true
    decodeImg := fun _ => some ⟨640, 480⟩
    captureOk := true
    recorderOk := true }

/-- A concrete sample image. -/
def imgA : GeneratedImage := ⟨"AAAA", "image/png"⟩

/-- A concrete sample image whose payload `hostDecodeFail` cannot decode. -/
def imgB : GeneratedImage := ⟨"BBBB", "image/png"⟩

/-- A concrete sample image. -/
def imgC : GeneratedImage := ⟨"CCCC", "image/png"⟩

/-- A host that decodes every image except `imgB` (its `Image` element
fires `onerror`, line 263). -/
def hostDecodeFail : Host :=
  { ctx2d := true
    decodeImg := fun img => if img.base64 = "BBBB" then none else some ⟨640, 480⟩
    captureOk := true
    recorderOk := true }

/-- A host where `canvas.captureStream` throws (surface capture
unsupported). -/
def hostNoCapture : Host :=
  { hostAllOk with captureOk := false }

/-- A host where the `MediaRecorder` constructor throws (codec
unsupported). -/
def hostNoRecorder : Host :=
  { hostAllOk with recorderOk := false }

/-- A host where `canvas.getContext` returns null. -/
def hostNoCtx : Host :=
  { hostAllOk with ctx2d := false }

end FacelessVideo

namespace FacelessVideo

/-! ## Scheduler arithmetic -/

lemma natCast_pos_of_one_le {n : ℕ} (hn : 1 ≤ n) : (0:ℚ) < n := by
  exact_mod_cast Nat.lt_of_lt_of_le Nat.zero_lt_one hn

lemma sceneDuration_pos {D : ℚ} {n : ℕ} (hn : 1 ≤ n) (hD : 0 < D) :
    0 < sceneDuration D n :=
  div_pos hD (natCast_pos_of_one_le hn)

lemma sceneDuration_le {D : ℚ} {n : ℕ} (hn : 1 ≤ n) (hD : 0 < D) :
    sceneDuration D n ≤ D :=
  div_le_self hD.le (by exact_mod_cast hn)

lemma currentScene_nonneg {D t : ℚ} {n : ℕ} (hn : 1 ≤ n) (hD : 0 < D) (ht : 0 ≤ t) :
    0 ≤ currentScene D n t := by
  have hd := sceneDuration_pos hn hD
  have h1 : (1:ℤ) ≤ (n:ℤ) := by exact_mod_cast hn
  exact le_min (Int.floor_nonneg.mpr (div_nonneg ht hd.le)) (by omega)

lemma currentScene_lt {D t : ℚ} {n : ℕ} (hn : 1 ≤ n) : currentScene D n t < n := by
  have h1 : (1:ℤ) ≤ (n:ℤ) := by exact_mod_cast hn
  exact lt_of_le_of_lt (min_le_right _ _) (by omega)

lemma currentScene_mono {D t₁ t₂ : ℚ} {n : ℕ} (hn : 1 ≤ n) (hD : 0 < D)
    (h12 : t₁ ≤ t₂) : currentScene D n t₁ ≤ currentScene D n t₂ := by
  have hd := sceneDuration_pos hn hD
  exact min_le_min (Int.floor_le_floor (by gcongr)) le_rfl

lemma currentScene_zero {D : ℚ} {n : ℕ} (hn : 1 ≤ n) : currentScene D n 0 = 0 := by
  have h1 : (1:ℤ) ≤ (n:ℤ) := by exact_mod_cast hn
  simp only [currentScene, zero_div, Int.floor_zero]
  omega

lemma currentScene_late {D t : ℚ} {n : ℕ} (hn : 1 ≤ n) (hD : 0 < D)
    (hlow : D - sceneDuration D n ≤ t) : currentScene D n t = (n : ℤ) - 1 := by
  have hd := sceneDuration_pos hn hD
  have hn0 : (0:ℚ) < n := natCast_pos_of_one_le hn
  have hDeq : (n : ℚ) * sceneDuration D n = D := by
    field_simp [sceneDuration]
  refine min_eq_right ?_
  rw [Int.le_floor]
  push_cast
  rw [le_div_iff₀ hd]
  nlinarith [hDeq, hlow]

/-- C1: for every scene count `N ≥ 1`, audio duration `D > 0` and elapsed
time `t ∈ [0, D)`, the scheduler's scene index is
`min(floor(t / (D/N)), N-1)`; it lies in `[0, N)`, is non-decreasing in
`t`, equals `0` at `t = 0`, and equals `N-1` on a whole left
neighbourhood of `D` (so `sceneIndex(t) → N-1` as `t → D⁻`). -/
theorem claim_C1_scheduler_index (n : ℕ) (D : ℚ) (hn : 1 ≤ n) (hD : 0 < D) :
    (∀ t : ℚ, currentScene D n t = min ⌊t / (D / n)⌋ ((n : ℤ) - 1)) ∧
    (∀ t : ℚ, 0 ≤ t → t < D → 0 ≤ currentScene D n t ∧ currentScene D n t < n) ∧
    (∀ t₁ t₂ : ℚ, 0 ≤ t₁ → t₁ ≤ t₂ → t₂ < D →
      currentScene D n t₁ ≤ currentScene D n t₂) ∧
    currentScene D n 0 = 0 ∧
    (∃ t₀ : ℚ, 0 ≤ t₀ ∧ t₀ < D ∧
      ∀ t : ℚ, t₀ ≤ t → t < D → currentScene D n t = (n : ℤ) - 1) := by
  refine ⟨fun t => rfl,
    fun t ht _ => ⟨currentScene_nonneg hn hD ht, currentScene_lt hn⟩,
    fun t₁ t₂ _ h12 _ => currentScene_mono hn hD h12,
    currentScene_zero hn,
    D - sceneDuration D n, ?_, ?_, fun t hlow _ => currentScene_late hn hD hlow⟩
  · have := sceneDuration_le hn hD
    linarith
  · have := sceneDuration_pos hn hD
    linarith

/-- Witness for C1 at `N = 3` scenes and `D = 9` seconds. -/
theorem claim_C1_scheduler_index_witness :
    (1 ≤ 3 ∧ (0:ℚ) < 9) ∧ currentScene 9 3 0 = 0 :=
  ⟨⟨by norm_num, by norm_num⟩,
    (claim_C1_scheduler_index 3 9 (by norm_num) (by norm_num)).2.2.2.1⟩

lemma jsTrunc_eq_floor {q : ℚ} (hq : 0 ≤ q) : jsTrunc q = ⌊q⌋ := if_pos hq

lemma sceneProgress_eq_fract {D t : ℚ} {n : ℕ} (hd : 0 < sceneDuration D n)
    (ht : 0 ≤ t) : sceneProgress D n t = Int.fract (t / sceneDuration D n) := by
  have hq : 0 ≤ t / sceneDuration D n := div_nonneg ht hd.le
  unfold sceneProgress timeInScene jsMod
  rw [jsTrunc_eq_floor hq, Int.fract, sub_div]
  congr 1
  exact mul_div_cancel_left₀ _ hd.ne'

/-- C2: for every `N ≥ 1`, `D > 0` and `t ∈ [0, D)`, the intra-scene
progress fraction is `(t mod (D/N)) / (D/N)` (with the JavaScript `%`),
always lies in `[0, 1)`, and equals `0` at every scene boundary
`t = k * sceneDuration`. -/
theorem claim_C2_scene_progress (n : ℕ) (D : ℚ) (hn : 1 ≤ n) (hD : 0 < D) :
    (∀ t : ℚ, sceneProgress D n t = jsMod t (D / n) / (D / n)) ∧
    (∀ t : ℚ, 0 ≤ t → t < D → 0 ≤ sceneProgress D n t ∧ sceneProgress D n t < 1) ∧
    (∀ k : ℕ, (k : ℚ) * sceneDuration D n < D →
      sceneProgress D n ((k : ℚ) * sceneDuration D n) = 0) := by
  have hd := sceneDuration_pos hn hD
  refine ⟨fun t => rfl, fun t ht _ => ?_, fun k _ => ?_⟩
  · rw [sceneProgress_eq_fract hd ht]
    exact ⟨Int.fract_nonneg _, Int.fract_lt_one _⟩
  · have hk0 : 0 ≤ (k:ℚ) * sceneDuration D n := mul_nonneg (Nat.cast_nonneg k) hd.le
    rw [sceneProgress_eq_fract hd hk0, mul_div_cancel_right₀ _ hd.ne']
    exact Int.fract_natCast k

/-- Witness for C2 at `N = 3`, `D = 9`, scene boundary `k = 1`. -/
theorem claim_C2_scene_progress_witness :
    (1 ≤ 3 ∧ (0:ℚ) < 9 ∧ (1:ℚ) * sceneDuration 9 3 < 9) ∧
    sceneProgress 9 3 ((1:ℚ) * sceneDuration 9 3) = 0 :=
  ⟨⟨by norm_num, by norm_num, by norm_num [sceneDuration]⟩,
    (claim_C2_scene_progress 3 9 (by norm_num) (by norm_num)).2.2 1
      (by norm_num [sceneDuration])⟩

/-- C3: the Ken Burns animator has `scale(p) = 1 + p * 0.1`, `scale(0) = 1`,
`scale` strictly increasing, and the destination rectangle is
`destW = nativeW * scale(p)`, `destH = nativeH * scale(p)`,
`destX = (canvasW - destW)/2`, `destY = (canvasH - destH)/2`, so
`destX + destW/2 = canvasW/2`: the frame is always horizontally centered
(exactly, in exact arithmetic). -/
theorem claim_C3_ken_burns :
    kbScale 0 = 1 ∧
    (∀ p q : ℚ, p < q → kbScale p < kbScale q) ∧
    (∀ p nw nh cw ch : ℚ,
      (kenBurns p nw nh cw ch).w = nw * kbScale p ∧
      (kenBurns p nw nh cw ch).h = nh * kbScale p ∧
      (kenBurns p nw nh cw ch).x = (cw - nw * kbScale p) / 2 ∧
      (kenBurns p nw nh cw ch).y = (ch - nh * kbScale p) / 2 ∧
      (kenBurns p nw nh cw ch).x + (kenBurns p nw nh cw ch).w / 2 = cw / 2) := by
  refine ⟨by norm_num [kbScale],
    fun p q hpq => by simp only [kbScale]; linarith,
    fun p nw nh cw ch => ⟨rfl, rfl, rfl, rfl, ?_⟩⟩
  simp only [kenBurns, kbScale]
  ring

/-- Witness for C3: the strict-increase hypothesis discharged at
`p = 0 < q = 1`. -/
theorem claim_C3_ken_burns_witness :
    (0:ℚ) < 1 ∧ kbScale 0 < kbScale 1 :=
  ⟨by norm_num, claim_C3_ken_burns.2.1 0 1 (by norm_num)⟩

/-- C10: with an empty image list (`N = 0`), `sceneDuration = D / 0` is
not a positive finite number (in ℚ the convention makes it `0`; the
JavaScript double is `+Infinity`; in both cases `t / sceneDuration`
floors to `0`), the scheduler's index is `-1` for every `t ≥ 0` — an
out-of-range frame reference — and no guard rejects the call:
`assembleSetup` still reaches `recorder.start()`.  So the `N ≥ 1`
precondition is necessary for any frame to be drawable. -/
theorem claim_C10_empty_images (D t : ℚ) (hD : 0 < D) (ht : 0 ≤ t) :
    sceneDuration D 0 = 0 ∧
    currentScene D 0 t = -1 ∧
    ¬ 0 ≤ currentScene D 0 t ∧
    assembleSetup hostAllOk [] = .started [] := by
  have h1 : sceneDuration D 0 = 0 := by simp [sceneDuration]
  have h2 : currentScene D 0 t = -1 := by norm_num [currentScene, h1]
  refine ⟨h1, h2, ?_, rfl⟩
  rw [h2]
  norm_num

/-- Witness for C10 at `D = 1`, `t = 0`. -/
theorem claim_C10_empty_images_witness :
    ((0:ℚ) < 1 ∧ (0:ℚ) ≤ 0) ∧ currentScene 1 0 0 = -1 :=
  ⟨⟨by norm_num, le_refl 0⟩,
    (claim_C10_empty_images 1 0 (by norm_num) (le_refl 0)).2.1⟩

end FacelessVideo

namespace FacelessVideo

/-! ## Promise settlement and the recorder event handlers -/

lemma stepRec_settled_some {s : RecState} {v : Settlement}
    (hs : s.settled = some v) (ev : RecEvent) : (stepRec s ev).settled = some v := by
  cases ev <;> simp [stepRec, hs]

lemma foldl_settled_some {v : Settlement} :
    ∀ (l : List RecEvent) (s : RecState), s.settled = some v →
      (List.foldl stepRec s l).settled = some v
  | [], _, hs => hs
  | ev :: l, s, hs => foldl_settled_some l _ (stepRec_settled_some hs ev)

lemma foldl_dataOnly :
    ∀ (pre : List RecEvent) (s : RecState),
      (∀ ev ∈ pre, ∃ c, ev = RecEvent.dataavailable c) → s.settled = none →
      (List.foldl stepRec s pre).settled = none
  | [], _, _, hs => hs
  | ev :: pre, s, hall, hs => by
    obtain ⟨c, rfl⟩ := hall ev (List.mem_cons_self ev pre)
    exact foldl_dataOnly pre _ (fun e he => hall e (List.mem_cons_of_mem _ he)) hs

lemma foldl_data :
    ∀ (cs : List Chunk) (s : RecState), s.settled = none →
      List.foldl stepRec s (cs.map RecEvent.dataavailable) =
        { chunks := s.chunks ++ cs, settled := none }
  | [], s, hs => by cases s; simp_all
  | c :: cs, s, hs => by
    simp only [List.map_cons, List.foldl_cons]
    rw [show stepRec s (.dataavailable c) =
      { chunks := s.chunks ++ [c], settled := s.settled } from rfl, hs]
    rw [foldl_data cs _ rfl]
    simp

/-- C5: if the encoder reports an error mid-run (after any number of
emitted chunks, before any stop), the promise is rejected with the
encoder's error (the spec's `EncodingError`) and no blob — partial or
otherwise — is ever resolved, whatever events follow: the accumulated
chunks are discarded. -/
theorem claim_C5_encoder_error (h : Host) (images : List GeneratedImage)
    (frames : List DecodedFrame) (hstart : assembleSetup h images = .started frames)
    (pre post : List RecEvent) (e : ℕ)
    (hpre : ∀ ev ∈ pre, ∃ c, ev = RecEvent.dataavailable c) :
    assembleOutcome h images (pre ++ RecEvent.error e :: post) =
      .rejected (.recorderError e) ∧
    ∀ b : Blob, assembleOutcome h images (pre ++ RecEvent.error e :: post) ≠
      .resolved b := by
  have h0 : (List.foldl stepRec ⟨[], none⟩ pre).settled = none :=
    foldl_dataOnly pre _ hpre rfl
  have hsettled : (runRecorder (pre ++ RecEvent.error e :: post)).settled =
      some (.err (.recorderError e)) := by
    unfold runRecorder
    rw [List.foldl_append, List.foldl_cons]
    apply foldl_settled_some
    simp [stepRec, h0]
  have houtcome : assembleOutcome h images (pre ++ RecEvent.error e :: post) =
      .rejected (.recorderError e) := by
    simp [assembleOutcome, hstart, hsettled]
  exact ⟨houtcome, fun b hb => by rw [houtcome] at hb; exact Outcome.noConfusion hb⟩

/-- Witness for C5: one chunk emitted, then an encoder error, then the
stop event — the promise rejects with the encoder error. -/
theorem claim_C5_encoder_error_witness :
    (assembleSetup hostAllOk [imgA] = .started [⟨640, 480⟩] ∧
      ∀ ev ∈ [RecEvent.dataavailable 7], ∃ c, ev = RecEvent.dataavailable c) ∧
    assembleOutcome hostAllOk [imgA]
      ([RecEvent.dataavailable 7] ++ RecEvent.error 5 :: [RecEvent.stop]) =
      .rejected (.recorderError 5) :=
  ⟨⟨rfl, fun ev hev => by rw [List.mem_singleton] at hev; exact ⟨7, hev⟩⟩,
    (claim_C5_encoder_error hostAllOk [imgA] [⟨640, 480⟩] rfl
      [RecEvent.dataavailable 7] [RecEvent.stop] 5
      (fun ev hev => by rw [List.mem_singleton] at hev; exact ⟨7, hev⟩)).1⟩

/-- C9: on a successful run (chunks emitted, then the stop signal), the
promise resolves with one blob whose parts are exactly the emitted
chunks in emission order, tagged `video/webm`; and before the stop
signal arrives the promise is still pending, so resolution happens only
after the encoder has signalled it stopped and flushed. -/
theorem claim_C9_success_blob (h : Host) (images : List GeneratedImage)
    (frames : List DecodedFrame) (hstart : assembleSetup h images = .started frames)
    (cs : List Chunk) :
    assembleOutcome h images (cs.map RecEvent.dataavailable ++ [RecEvent.stop]) =
      .resolved ⟨cs, "video/webm"⟩ ∧
    assembleOutcome h images (cs.map RecEvent.dataavailable) = .pending := by
  have hpre : List.foldl stepRec ⟨[], none⟩ (cs.map RecEvent.dataavailable) =
      { chunks := cs, settled := none } := by
    rw [foldl_data cs _ rfl]
    simp
  have h1 : (runRecorder (cs.map RecEvent.dataavailable ++ [RecEvent.stop])).settled =
      some (.ok ⟨cs, "video/webm"⟩) := by
    unfold runRecorder
    rw [List.foldl_append, hpre]
    simp [stepRec]
  have h2 : (runRecorder (cs.map RecEvent.dataavailable)).settled = none := by
    unfold runRecorder
    rw [hpre]
  exact ⟨by simp [assembleOutcome, hstart, h1], by simp [assembleOutcome, hstart, h2]⟩

/-- Witness for C9: two chunks then stop resolve to the blob with those
two parts in order. -/
theorem claim_C9_success_blob_witness :
    (assembleSetup hostAllOk [imgA] = .started [⟨640, 480⟩]) ∧
    assembleOutcome hostAllOk [imgA]
      ([1, 2].map RecEvent.dataavailable ++ [RecEvent.stop]) =
      .resolved ⟨[1, 2], "video/webm"⟩ :=
  ⟨rfl, (claim_C9_success_blob hostAllOk [imgA] [⟨640, 480⟩] rfl [1, 2]).1⟩

lemma decodeAll_ok (h : Host) :
    ∀ images : List GeneratedImage,
      (∀ img ∈ images, (h.decodeImg img).isSome) →
      ∃ frames, decodeAll h images = some frames ∧
        List.Forall₂ (fun img fr => h.decodeImg img = some fr) images frames
  | [], _ => ⟨[], rfl, List.Forall₂.nil⟩
  | img :: rest, hall => by
    obtain ⟨f, hf⟩ := Option.isSome_iff_exists.mp
      (hall img (List.mem_cons_self img rest))
    obtain ⟨fs, hfs, hrest⟩ := decodeAll_ok h rest
      (fun i hi => hall i (List.mem_cons_of_mem _ hi))
    exact ⟨f :: fs, by simp [decodeAll, hf, hfs], List.Forall₂.cons hf hrest⟩

/-- C8: when all `N` input images decode, the frame source yields exactly
`N` decoded frames, in input order, one per input (`Forall₂` pairs the
`i`-th frame with the `i`-th image); and the encoder only starts in the
`started` state, which by construction carries the fully decoded list,
so all decodes complete before `recorder.start()` and the render loop. -/
theorem claim_C8_frame_source (h : Host) (images : List GeneratedImage)
    (hctx : h.ctx2d = true) (hcap : h.captureOk = true) (hrec : h.recorderOk = true)
    (hdec : ∀ img ∈ images, (h.decodeImg img).isSome) :
    ∃ frames : List DecodedFrame,
      decodeAll h images = some frames ∧
      frames.length = images.length ∧
      List.Forall₂ (fun img fr => h.decodeImg img = some fr) images frames ∧
      assembleSetup h images = .started frames := by
  obtain ⟨frames, hfr, hall⟩ := decodeAll_ok h images hdec
  refine ⟨frames, hfr, hall.length_eq.symm, hall, ?_⟩
  simp [assembleSetup, hctx, hcap, hrec, hfr]

/-- Witness for C8 on two concrete images and the all-capable host. -/
theorem claim_C8_frame_source_witness :
    (hostAllOk.ctx2d = true ∧ ∀ img ∈ [imgA, imgB], (hostAllOk.decodeImg img).isSome) ∧
    ∃ frames : List DecodedFrame,
      decodeAll hostAllOk [imgA, imgB] = some frames ∧
      frames.length = [imgA, imgB].length ∧
      List.Forall₂ (fun img fr => hostAllOk.decodeImg img = some fr) [imgA, imgB] frames ∧
      assembleSetup hostAllOk [imgA, imgB] = .started frames :=
  ⟨⟨rfl, fun _ _ => rfl⟩,
    claim_C8_frame_source hostAllOk [imgA, imgB] rfl rfl rfl (fun _ _ => rfl)⟩

/-- C4, evaluated at the failing input (image 2 of 3 fails to decode):
the decode rejection escapes the `async` executor, so — contrary to the
claim and to the intent visible in the `onerror` wiring of line 263 —
the returned promise never rejects with a decode error: it never settles
at all.  The parts of the claim about the encoder do hold: whatever
events one supplies, `recorder.start()` is never executed, no chunk is
accumulated and no blob exists. -/
theorem claim_C4_decode_failure_hangs :
    hostDecodeFail.decodeImg imgB = none ∧
    (∀ events : List RecEvent,
      assembleOutcome hostDecodeFail [imgA, imgB, imgC] events = .pending) ∧
    encoderStarted hostDecodeFail [imgA, imgB, imgC] = false :=
  ⟨rfl, fun _ => rfl, rfl⟩

/-- C6, evaluated at the failing inputs: when surface capture or the
recorder constructor is unsupported (throws), the exception escapes the
`async` executor and the promise never settles — it is not rejected with
a `SetupError` as the claim states, and the encoder never starts.  Only
the unavailable-drawing-context case behaves as claimed: `reject` is
called synchronously on line 251 before the first `await`, so the
promise rejects. -/
theorem claim_C6_setup_unsupported :
    (∀ events : List RecEvent,
      assembleOutcome hostNoCapture [imgA] events = .pending) ∧
    (∀ events : List RecEvent,
      assembleOutcome hostNoRecorder [imgA] events = .pending) ∧
    encoderStarted hostNoRecorder [imgA] = false ∧
    (∀ events : List RecEvent,
      assembleOutcome hostNoCtx [imgA] events = .rejected .ctxUnavailable) :=
  ⟨fun _ => rfl, fun _ => rfl, rfl, fun _ => rfl⟩

/-! ## The render loop -/

lemma mem_of_mem_takeWhile {α : Type} {p : α → Bool} :
    ∀ {l : List α} {a : α}, a ∈ l.takeWhile p → a ∈ l
  | [], a, h => by simp at h
  | b :: l, a, h => by
    rw [List.takeWhile_cons] at h
    by_cases hp : p b
    · rw [if_pos hp] at h
      rcases List.mem_cons.mp h with h1 | h2
      · exact h1 ▸ List.mem_cons_self _ _
      · exact List.mem_cons_of_mem _ (mem_of_mem_takeWhile h2)
    · rw [if_neg hp] at h
      exact absurd h (List.not_mem_nil a)

lemma renderLoop_frames (D : ℚ) (n : ℕ) :
    ∀ ts : List ℚ,
      (renderLoop D n ts).1 =
        (ts.takeWhile fun t => decide (t < D)).map fun t => (t, currentScene D n t)
  | [] => rfl
  | t :: ts => by
    by_cases h : D ≤ t
    · simp [renderLoop, h, List.takeWhile_cons, not_lt.mpr h]
    · simp [renderLoop, h, List.takeWhile_cons, not_le.mp h,
        renderLoop_frames D n ts]

lemma renderLoop_stopFlag (D : ℚ) (n : ℕ) :
    ∀ ts : List ℚ, ((renderLoop D n ts).2 = true ↔ ∃ t ∈ ts, D ≤ t)
  | [] => by simp [renderLoop]
  | t :: ts => by
    by_cases h : D ≤ t
    · simp [renderLoop, h]
    · simp [renderLoop, h, renderLoop_stopFlag D n ts]

/-- C7: over any run with `N ≥ 1`, `D > 0` and non-negative sampled
elapsed times, the rendered ticks are exactly the samples strictly
before the first one with `t ≥ D` (so once `t ≥ D` no frame is rendered
on that or any later tick), the encoder is stopped exactly when some
sample reaches `D`, and every rendered frame references a scene index in
`[0, N)` — the image lookup is always in range. -/
theorem claim_C7_render_loop (n : ℕ) (D : ℚ) (hn : 1 ≤ n) (hD : 0 < D)
    (ts : List ℚ) (hts : ∀ t ∈ ts, 0 ≤ t) :
    (renderLoop D n ts).1 =
      (ts.takeWhile fun t => decide (t < D)).map (fun t => (t, currentScene D n t)) ∧
    ((renderLoop D n ts).2 = true ↔ ∃ t ∈ ts, D ≤ t) ∧
    (∀ p ∈ (renderLoop D n ts).1, p.1 < D ∧ 0 ≤ p.2 ∧ p.2 < n) := by
  refine ⟨renderLoop_frames D n ts, renderLoop_stopFlag D n ts, fun p hp => ?_⟩
  rw [renderLoop_frames D n ts] at hp
  obtain ⟨t, htw, rfl⟩ := List.mem_map.mp hp
  have hpred := List.mem_takeWhile_imp (p := fun t => decide (t < D)) htw
  have htd : t < D := of_decide_eq_true hpred
  have hmem : t ∈ ts := mem_of_mem_takeWhile htw
  exact ⟨htd, currentScene_nonneg hn hD (hts t hmem), currentScene_lt hn⟩

/-- Witness for C7 at `N = 3`, `D = 9` and samples `0, 5, 9`: the tick at
`t = 9 ≥ D` stops the encoder. -/
theorem claim_C7_render_loop_witness :
    (1 ≤ 3 ∧ (0:ℚ) < 9 ∧ ∀ t ∈ ([0, 5, 9] : List ℚ), 0 ≤ t) ∧
    ((renderLoop 9 3 [0, 5, 9]).2 = true ↔ ∃ t ∈ ([0, 5, 9] : List ℚ), 9 ≤ t) :=
  ⟨⟨by norm_num, by norm_num, by intro t ht; fin_cases ht <;> norm_num⟩,
    (claim_C7_render_loop 3 9 (by norm_num) (by norm_num) [0, 5, 9]
      (by intro t ht; fin_cases ht <;> norm_num)).2.1⟩

end FacelessVideo
